import Mathlib

/-!
# Verification of the youtube-crawl collection engine

Shallow embedding of the repository's two entry scripts
(`src/index.ts` and the full-snapshot script `src/unnamed/part_000`).
Both scripts contain a textually identical cursor-paginated collection
loop `fetchCommentsUntilCount`, differing only in how a raw response item
is mapped to a stored comment record; the loop here is therefore
parametrised by that page-to-item mapping and instantiated twice.

Network effects are modelled by passing the stream of successive HTTP
responses as a list: each fetch the loop performs consumes the next
element, which is either a parsed page or a non-2xx failure status.
-/

namespace YoutubeCrawl

/-- Reply payload of a raw comment thread (`item.replies.comments` in
`global.d.ts` is `AnyArray`); the scripts never inspect it, so its
elements are modelled opaquely as strings. -/
abbrev ReplyPayload := List String

/-- Model of `item.replies` in `YouTubeCommentResponse` (`global.d.ts`). -/
structure RawReplies where
  comments : ReplyPayload
  deriving Repr, DecidableEq

/-- Model of `item.snippet.topLevelComment.snippet`: the fields the scripts read. -/
structure TopLevelSnippet where
  authorDisplayName : String
  textDisplay : String
  publishedAt : String
  likeCount : Nat
  deriving Repr, DecidableEq

/-- Model of `item.snippet.topLevelComment`. -/
structure TopLevelComment where
  snippet : TopLevelSnippet
  deriving Repr, DecidableEq

/-- Model of `item.snippet` of a comment thread: the fields the scripts read. -/
structure RawItemSnippet where
  topLevelComment : TopLevelComment
  totalReplyCount : Nat
  deriving Repr, DecidableEq

/-- One element of `YouTubeCommentResponse.items` (`global.d.ts`),
restricted to the fields the scripts read. -/
structure RawItem where
  id : String
  snippet : RawItemSnippet
  replies : Option RawReplies
  deriving Repr, DecidableEq

/-- One response of the paginated comment endpoint: the fields of
`YouTubeCommentResponse` the scripts read (`items`, `nextPageToken`). -/
structure Page where
  items : List RawItem
  nextPageToken : Option String
  deriving Repr, DecidableEq

/-- Outcome of one transport call: a parsed page on HTTP 2xx, otherwise
the non-2xx status that makes `response.ok` false and raises `API错误`. -/
inductive FetchResult where
  | ok (page : Page)
  | err (status : Nat)
  deriving Repr, DecidableEq

/-- Errors a run can surface. `starved` is a model artifact: the supplied
response stream ran out while the loop still wanted a page (a real server
always answers, so theorems exclude it by hypothesis where needed). -/
inductive FetchErr where
  | http (status : Nat)
  | noVideo
  | starved
  deriving Repr, DecidableEq

/-- The comment record `src/index.ts` builds per item at runtime: the five
declared `IComment` fields plus the extra `replyCount`, `replies` and
`nextPageToken` properties its mapping adds. -/
structure ICommentWithToken where
  id : String
  author : String
  text : String
  publishedAt : String
  likeCount : Nat
  replyCount : Nat
  replies : Option ReplyPayload
  nextPageToken : Option String
  deriving Repr, DecidableEq

/-- The `IComment` record of `global.d.ts`, as built by the full-snapshot
script `src/unnamed/part_000`. -/
structure IComment where
  id : String
  author : String
  text : String
  publishedAt : String
  likeCount : Nat
  deriving Repr, DecidableEq

/-- The page-to-item mapping of `src/index.ts` (`data.items.map`
inside `fetchCommentsUntilCount`, lines 108-117). -/
def mapPageIndex (page : Page) : List ICommentWithToken :=
  page.items.map fun item =>
    { id := item.id
      author := item.snippet.topLevelComment.snippet.authorDisplayName
      text := item.snippet.topLevelComment.snippet.textDisplay
      publishedAt := item.snippet.topLevelComment.snippet.publishedAt
      likeCount := item.snippet.topLevelComment.snippet.likeCount
      replyCount := item.snippet.totalReplyCount
      replies := item.replies.map RawReplies.comments
      nextPageToken := page.nextPageToken }

/-- The per-item mapping of `src/unnamed/part_000` (`data.items.map`
inside `fetchCommentsUntilCount`, lines 226-232). -/
def mapItemFull (item : RawItem) : IComment :=
  { id := item.id
    author := item.snippet.topLevelComment.snippet.authorDisplayName
    text := item.snippet.topLevelComment.snippet.textDisplay
    publishedAt := item.snippet.topLevelComment.snippet.publishedAt
    likeCount := item.snippet.topLevelComment.snippet.likeCount }

/-- The page-to-item mapping of `src/unnamed/part_000`. -/
def mapPageFull (page : Page) : List IComment :=
  page.items.map mapItemFull

/-- JavaScript truthiness of an optional string (`if (nextPageToken)`,
`if (!nextPageToken || ...)`, `if (!id)`): absent and empty strings are
falsy. -/
def truthy : Option String → Bool
  | none => false
  | some s => s ≠ ""

/-- The query parameters both scripts build for one comment page
(`new URLSearchParams({...})` plus the conditional `pageToken` append). -/
def buildCommentParams (videoId key order : String) (nextPageToken : Option String) :
    List (String × String) :=
  [("part", "snippet,replies"), ("videoId", videoId), ("key", key),
    ("maxResults", "500"), ("order", order)]
    ++ (if truthy nextPageToken then [("pageToken", nextPageToken.getD "")] else [])

instance {ε α : Type} [DecidableEq ε] [DecidableEq α] : DecidableEq (Except ε α) :=
  fun x y =>
    match x, y with
    | .ok a, .ok b =>
      if h : a = b then .isTrue (by rw [h]) else .isFalse (by simp [h])
    | .error a, .error b =>
      if h : a = b then .isTrue (by rw [h]) else .isFalse (by simp [h])
    | .ok _, .error _ => .isFalse (by simp)
    | .error _, .ok _ => .isFalse (by simp)

/-- JavaScript `l.slice(0, e)`: a negative end counts from the end of the
array. -/
def jsSliceTo (l : List α) (e : Int) : List α :=
  if e < 0 then l.take (l.length - (-e).toNat) else l.take e.toNat

/-- The `while (comments.length < targetCount)` loop of
`fetchCommentsUntilCount`, common to both scripts up to the page-to-item
mapping `mp`. Returns the loop's result together with the number of
transport calls issued (instrumentation only). One fetch consumes one
element of `responses`; a non-ok response throws (`Except.error`), a page
is mapped and appended, and the loop breaks when the returned
`nextPageToken` is JavaScript-falsy (absent or empty, per
`!nextPageToken`) or the accumulated length reached `targetCount`. -/
def collectLoop (mp : Page → List α) (tc : Int) :
    List FetchResult → List α → Except FetchErr (List α) × Nat
  | responses, acc =>
    if (acc.length : Int) < tc then
      match responses with
      | [] => (.error .starved, 0)
      | .err s :: _ => (.error (.http s), 1)
      | .ok page :: rest =>
        let acc2 := acc ++ mp page
        if truthy page.nextPageToken = false ∨ tc ≤ (acc2.length : Int) then
          (.ok acc2, 1)
        else
          ((collectLoop mp tc rest acc2).1, (collectLoop mp tc rest acc2).2 + 1)
    else
      (.ok acc, 0)

/-- Embedding of `fetchCommentsUntilCount` (both scripts): run the collection loop from
an empty accumulator, then truncate with `comments.slice(0, targetCount)`
when `comments.length > targetCount`. -/
def fetchCommentsUntilCount (mp : Page → List α) (tc : Int)
    (responses : List FetchResult) : Except FetchErr (List α) × Nat :=
  ((collectLoop mp tc responses []).1.map fun comments =>
    if tc < (comments.length : Int) then jsSliceTo comments tc else comments,
    (collectLoop mp tc responses []).2)

/-- Items available across pages up to and including the first page whose
cursor is JavaScript-falsy (absent or empty) — the page at which the loop
stops collecting. -/
def availableItems : List Page → Nat
  | [] => 0
  | p :: ps =>
    p.items.length + (if truthy p.nextPageToken = false then 0 else availableItems ps)

/-- A pure page stream presented as successive successful responses. -/
def okStream (pages : List Page) : List FetchResult :=
  pages.map .ok

/-- Length of the mapped items of the first `n` pages of a stream. -/
def cumulative (mp : Page → List α) (pages : List Page) (n : Nat) : Nat :=
  (((pages.take n).map mp).flatten).length

/-- The loop's termination condition as observed right after fetching page
`n` (0-based) of a pure page stream, having started with `acc0` items
already accumulated: that page's returned cursor is JavaScript-falsy
(absent or empty), or the accumulated length has reached the target. -/
def stopsAfter (mp : Page → List α) (tc : Int) (pages : List Page)
    (acc0 n : Nat) : Prop :=
  (pages[n]?.map fun p => truthy p.nextPageToken) = some false ∨
    tc ≤ ((acc0 + cumulative mp pages (n + 1) : Nat) : Int)

/-- Model of the `video.snippet` fields read by `fetchVideoInfo`. The declaration files
for the video and caption response types are not part of the repository;
field shapes follow their use in the scripts, with the statistics counters
kept as the strings the API delivers and `thumbnails` opaque. -/
structure VideoSnippetInfo where
  title : String
  description : String
  channelId : String
  channelTitle : String
  publishedAt : String
  categoryId : String
  tags : Option (List String)
  thumbnails : String
  deriving Repr, DecidableEq

/-- Model of the `video.contentDetails` fields read by `fetchVideoInfo`. -/
structure VideoContentDetails where
  duration : String
  deriving Repr, DecidableEq

/-- Model of the `video.statistics` fields read by `fetchVideoInfo`. -/
structure VideoStatistics where
  viewCount : String
  likeCount : String
  commentCount : String
  deriving Repr, DecidableEq

/-- One element of `YouTubeVideoResponse.items`. -/
structure RawVideo where
  id : String
  snippet : VideoSnippetInfo
  contentDetails : VideoContentDetails
  statistics : VideoStatistics
  deriving Repr, DecidableEq

/-- The video endpoint's response body; `items` may be absent
(`!data.items` is checked before its length). -/
structure YouTubeVideoResponse where
  items : Option (List RawVideo)
  deriving Repr, DecidableEq

/-- The `IVideoInfo` record both scripts assemble. -/
structure IVideoInfo where
  id : String
  title : String
  description : String
  channelId : String
  channelTitle : String
  publishedAt : String
  duration : String
  viewCount : String
  likeCount : String
  commentCount : String
  categoryId : String
  tags : List String
  thumbnails : String
  deriving Repr, DecidableEq

/-- Embedding of `fetchVideoInfo` (identical in both scripts): a non-2xx response
throws `API错误`; an absent or empty `items` array throws
`未找到视频信息`; otherwise the first returned video is shaped into
`IVideoInfo`, defaulting `tags` to `[]`. Both throws are rethrown by the
surrounding catch block, so they surface as errors here. -/
def fetchVideoInfo (resp : Except Nat YouTubeVideoResponse) :
    Except FetchErr IVideoInfo :=
  match resp with
  | .error s => .error (.http s)
  | .ok data =>
    match data.items with
    | none => .error .noVideo
    | some [] => .error .noVideo
    | some (video :: _) =>
      .ok { id := video.id
            title := video.snippet.title
            description := video.snippet.description
            channelId := video.snippet.channelId
            channelTitle := video.snippet.channelTitle
            publishedAt := video.snippet.publishedAt
            duration := video.contentDetails.duration
            viewCount := video.statistics.viewCount
            likeCount := video.statistics.likeCount
            commentCount := video.statistics.commentCount
            categoryId := video.snippet.categoryId
            tags := video.snippet.tags.getD []
            thumbnails := video.snippet.thumbnails }

/-- Model of `item.snippet` of a caption track, as read by `fetchCaptionsList`. -/
structure CaptionSnippet where
  language : String
  name : String
  trackKind : String
  isAutoGenerated : Option Bool
  deriving Repr, DecidableEq

/-- One element of `YouTubeCaptionsResponse.items`. -/
structure RawCaption where
  id : String
  snippet : CaptionSnippet
  deriving Repr, DecidableEq

/-- The caption endpoint's response body. -/
structure YouTubeCaptionsResponse where
  items : List RawCaption
  deriving Repr, DecidableEq

/-- The `ICaption` record `src/unnamed/part_000` assembles. -/
structure ICaption where
  id : String
  language : String
  name : String
  trackKind : String
  isAutoGenerated : Bool
  deriving Repr, DecidableEq

/-- Embedding of `fetchCaptionsList` (`src/unnamed/part_000`, lines 25-55): on any
failure the catch block returns `[]` instead of rethrowing; on success the
caption tracks are shaped, defaulting `isAutoGenerated` to `false`. -/
def fetchCaptionsList (resp : Except Nat YouTubeCaptionsResponse) :
    List ICaption :=
  match resp with
  | .error _ => []
  | .ok data =>
    data.items.map fun item =>
      { id := item.id
        language := item.snippet.language
        name := item.snippet.name
        trackKind := item.snippet.trackKind
        isAutoGenerated := item.snippet.isAutoGenerated.getD false }

/-- The language code captured by `/\.([^.]+)\.srt$/` on a subtitle
filename, or `"unknown"` when the pattern does not match. -/
def extractLang (file : String) : String :=
  if file.endsWith ".srt" then
    match (file.dropRight 4).splitOn "." with
    | [] => "unknown"
    | [_] => "unknown"
    | parts =>
      let lang := parts.getLastD ""
      if lang = "" then "unknown" else lang
  else "unknown"

/-- Assignment `obj[k] = v` on a JavaScript object modelled as an ordered
key-value list: an existing key is overwritten in place, a new key is
appended. -/
def setKey (m : List (String × String)) (k v : String) :
    List (String × String) :=
  if m.any fun p => p.1 == k then
    m.map fun p => if p.1 == k then (k, v) else p
  else m ++ [(k, v)]

/-- Embedding of `downloadCaptionsWithYtDlp` (`src/unnamed/part_000`, lines 63-128).
The yt-dlp subprocess and the subsequent directory read are external
effects and enter as results: `execResult` for `ytDlp.execPromise` and
`readResult` for the inner try block listing the output directory
(filenames paired with file contents). A subprocess failure is caught and
yields the empty mapping; a directory-read failure is caught by the inner
block with the same effect; otherwise every `{videoId}…*.srt` file is
stored under its extracted language code. -/
def downloadCaptionsWithYtDlp (videoId : String)
    (execResult : Except String Unit)
    (readResult : Except String (List (String × String))) :
    List (String × String) :=
  match execResult with
  | .error _ => []
  | .ok _ =>
    match readResult with
    | .error _ => []
    | .ok files =>
      (files.filter fun f =>
          f.1.startsWith videoId && f.1.endsWith ".srt").foldl
        (fun m f => setKey m (extractLang f.1) f.2) []

/-- The constant `captionSources` block of the consolidated snapshot. -/
structure CaptionSources where
  list : String
  content : String
  deriving Repr, DecidableEq

/-- The `metadata` block of the consolidated snapshot. -/
structure SnapshotMeta where
  crawledAt : String
  totalComments : Nat
  totalCaptions : Nat
  totalCaptionContents : Nat
  captionSources : CaptionSources
  deriving Repr, DecidableEq

/-- The consolidated `fullData` record of `src/unnamed/part_000`. -/
structure FullData where
  videoInfo : IVideoInfo
  comments : List IComment
  captions : List ICaption
  captionContents : List (String × String)
  metadata : SnapshotMeta
  deriving Repr, DecidableEq

/-- Embedding of `fetchVideoData` of the full-snapshot script (`src/unnamed/part_000`,
lines 268-353): a metadata or comment-collection error aborts the run
(rethrown by the catch block); caption listing and caption download never
abort; on success the consolidated `fullData` record is assembled. `now`
stands for `new Date().toISOString()`. -/
def fetchVideoData (now videoId : String)
    (videoResp : Except Nat YouTubeVideoResponse)
    (tc : Int) (commentResponses : List FetchResult)
    (captionsResp : Except Nat YouTubeCaptionsResponse)
    (execResult : Except String Unit)
    (readResult : Except String (List (String × String))) :
    Except FetchErr FullData :=
  match fetchVideoInfo videoResp with
  | .error e => .error e
  | .ok videoInfo =>
    match (fetchCommentsUntilCount mapPageFull tc commentResponses).1 with
    | .error e => .error e
    | .ok comments =>
      let captions := fetchCaptionsList captionsResp
      let captionContents := downloadCaptionsWithYtDlp videoId execResult
        readResult
      .ok { videoInfo := videoInfo
            comments := comments
            captions := captions
            captionContents := captionContents
            metadata :=
              { crawledAt := now
                totalComments := comments.length
                totalCaptions := captions.length
                totalCaptionContents := captionContents.length
                captionSources :=
                  { list := "YouTube Data API v3", content := "yt-dlp" } } }

/-- The main IIFE of `src/unnamed/part_000` (lines 356-373): exit status 1
when the `id` or `key` environment variable is JavaScript-falsy or when
`fetchVideoData` rejects, 0 otherwise. -/
def mainExitCode (envId envKey : Option String) (now : String)
    (videoResp : Except Nat YouTubeVideoResponse)
    (tc : Int) (commentResponses : List FetchResult)
    (captionsResp : Except Nat YouTubeCaptionsResponse)
    (execResult : Except String Unit)
    (readResult : Except String (List (String × String))) : Nat :=
  if ¬ truthy envId then 1
  else if ¬ truthy envKey then 1
  else
    match fetchVideoData now (envId.getD "") videoResp tc commentResponses
        captionsResp execResult readResult with
    | .ok _ => 0
    | .error _ => 1

/-- The record `fetchVideoData` of `src/index.ts` resolves with. -/
structure VideoData where
  videoInfo : IVideoInfo
  comments : List ICommentWithToken
  deriving Repr, DecidableEq

/-- Embedding of `fetchVideoData` of `src/index.ts` (lines 153-191): fetch metadata,
collect comments with the index mapping, persist both, and return them;
any error is rethrown by the catch block. -/
def fetchVideoDataIndex (videoResp : Except Nat YouTubeVideoResponse)
    (tc : Int) (commentResponses : List FetchResult) :
    Except FetchErr VideoData :=
  match fetchVideoInfo videoResp with
  | .error e => .error e
  | .ok videoInfo =>
    match (fetchCommentsUntilCount mapPageIndex tc commentResponses).1 with
    | .error e => .error e
    | .ok comments => .ok { videoInfo := videoInfo, comments := comments }

/-- Top level of `src/index.ts` (line 194):
`fetchVideoData().catch(console.error)` — a rejection is caught and only
logged, so the process finishes with exit status 0 on success and failure
alike, and no configuration check precedes the run. -/
def indexEntryExitCode (result : Except FetchErr VideoData) : Nat :=
  match result with
  | .ok _ => 0
  | .error _ => 0

/-- Modelled from the spec: §2 describes three near-duplicate entry
scripts, but only two are under `src/`; the comment-only variant is
missing. Per §6 it runs the same collection loop and persists whatever has
been accumulated through a finally-style guaranteed write on every exit
path. This function mirrors `collectLoop` and returns the accumulator as
it stands at the moment the loop exits — the value such a finally block
observes, also when the loop throws. -/
def accAtExit (mp : Page → List α) (tc : Int) :
    List FetchResult → List α → List α
  | responses, acc =>
    if (acc.length : Int) < tc then
      match responses with
      | [] => acc
      | .err _ :: _ => acc
      | .ok page :: rest =>
        let acc2 := acc ++ mp page
        if truthy page.nextPageToken = false ∨ tc ≤ (acc2.length : Int) then acc2
        else accAtExit mp tc rest acc2
    else acc

/-- Modelled from the spec: the comment-only entry variant — run the
collector and, via a finally-style write decoupled from how the loop
ended, always persist the accumulated comments to the output store
(`some w` = the store was written with `w`). -/
def commentOnlyRun (mp : Page → List α) (tc : Int)
    (responses : List FetchResult) :
    (Except FetchErr (List α) × Nat) × Option (List α) :=
  (fetchCommentsUntilCount mp tc responses,
    some (accAtExit mp tc responses []))

/-- A concrete raw comment thread, used by the closed witness checks. -/
def sampleItem : RawItem :=
  { id := "i1"
    snippet :=
      { topLevelComment :=
          { snippet :=
              { authorDisplayName := "au"
                textDisplay := "tx"
                publishedAt := "2024-01-01T00:00:00Z"
                likeCount := 3 } }
        totalReplyCount := 2 }
    replies := none }

/-- A concrete two-item page whose cursor is truthy. -/
def samplePage1 : Page :=
  { items := [sampleItem, sampleItem], nextPageToken := some "c1" }

/-- A concrete finite page stream: two items then one, cursor absent
(hence falsy) on the second page. -/
def samplePages : List Page :=
  [samplePage1, { items := [sampleItem], nextPageToken := none }]

/-- A concrete raw video, used by the closed witness checks. -/
def sampleVideo : RawVideo :=
  { id := "v"
    snippet :=
      { title := "t"
        description := "d"
        channelId := "c"
        channelTitle := "ct"
        publishedAt := "2024-01-01T00:00:00Z"
        categoryId := "cat"
        tags := none
        thumbnails := "th" }
    contentDetails := { duration := "PT1M" }
    statistics := { viewCount := "1", likeCount := "2", commentCount := "3" } }

/-- The shaped form of `sampleVideo`, used by the closed witness checks. -/
def sampleVideoInfo : IVideoInfo :=
  { id := "v"
    title := "t"
    description := "d"
    channelId := "c"
    channelTitle := "ct"
    publishedAt := "2024-01-01T00:00:00Z"
    duration := "PT1M"
    viewCount := "1"
    likeCount := "2"
    commentCount := "3"
    categoryId := "cat"
    tags := []
    thumbnails := "th" }

/-- A concrete stream whose first page returns a cursor: one item then an
empty final page. -/
def sampleTokenPages : List Page :=
  [{ items := [sampleItem], nextPageToken := some "T" },
   { items := [], nextPageToken := none }]

/-- The record `src/index.ts` builds from `sampleItem` on a page whose
cursor is `some "T"`. -/
def sampleIndexComment : ICommentWithToken :=
  { id := "i1"
    author := "au"
    text := "tx"
    publishedAt := "2024-01-01T00:00:00Z"
    likeCount := 3
    replyCount := 2
    replies := none
    nextPageToken := some "T" }

/-! ## Step lemmas for the collection loop -/

theorem collectLoop_stop (mp : Page → List α) (tc : Int) (rs : List FetchResult)
    (acc : List α) (h : ¬ (acc.length : Int) < tc) :
    collectLoop mp tc rs acc = (.ok acc, 0) := by
  rw [collectLoop.eq_def]
  exact if_neg h

theorem collectLoop_nil (mp : Page → List α) (tc : Int) (acc : List α)
    (h : (acc.length : Int) < tc) :
    collectLoop mp tc [] acc = (.error .starved, 0) := by
  rw [collectLoop.eq_def]
  exact if_pos h

theorem collectLoop_err (mp : Page → List α) (tc : Int) (s : Nat)
    (rest : List FetchResult) (acc : List α) (h : (acc.length : Int) < tc) :
    collectLoop mp tc (.err s :: rest) acc = (.error (.http s), 1) := by
  rw [collectLoop.eq_def]
  exact if_pos h

theorem collectLoop_break (mp : Page → List α) (tc : Int) (page : Page)
    (rest : List FetchResult) (acc : List α) (h : (acc.length : Int) < tc)
    (hb : truthy page.nextPageToken = false ∨ tc ≤ ((acc ++ mp page).length : Int)) :
    collectLoop mp tc (.ok page :: rest) acc = (.ok (acc ++ mp page), 1) := by
  rw [collectLoop.eq_def]
  show (if (acc.length : Int) < tc then
      if truthy page.nextPageToken = false ∨ tc ≤ ((acc ++ mp page).length : Int) then
        ((Except.ok (acc ++ mp page) : Except FetchErr (List α)), (1 : Nat))
      else
        ((collectLoop mp tc rest (acc ++ mp page)).1,
          (collectLoop mp tc rest (acc ++ mp page)).2 + 1)
    else ((Except.ok acc : Except FetchErr (List α)), (0 : Nat))) = _
  rw [if_pos h, if_pos hb]

theorem collectLoop_cont (mp : Page → List α) (tc : Int) (page : Page)
    (rest : List FetchResult) (acc : List α) (h : (acc.length : Int) < tc)
    (hb : ¬ (truthy page.nextPageToken = false ∨ tc ≤ ((acc ++ mp page).length : Int))) :
    collectLoop mp tc (.ok page :: rest) acc =
      ((collectLoop mp tc rest (acc ++ mp page)).1,
        (collectLoop mp tc rest (acc ++ mp page)).2 + 1) := by
  rw [collectLoop.eq_def]
  show (if (acc.length : Int) < tc then
      if truthy page.nextPageToken = false ∨ tc ≤ ((acc ++ mp page).length : Int) then
        ((Except.ok (acc ++ mp page) : Except FetchErr (List α)), (1 : Nat))
      else
        ((collectLoop mp tc rest (acc ++ mp page)).1,
          (collectLoop mp tc rest (acc ++ mp page)).2 + 1)
    else ((Except.ok acc : Except FetchErr (List α)), (0 : Nat))) = _
  rw [if_pos h, if_neg hb]

/-! ## Core lemmas about the collection loop -/

theorem okStream_nil : okStream [] = [] := rfl

theorem okStream_cons (p : Page) (ps : List Page) :
    okStream (p :: ps) = .ok p :: okStream ps := rfl

/-- With a non-positive target the `while` guard fails at once: the loop
body never runs, no fetch is issued, and the empty list is returned. -/
theorem fetchCommentsUntilCount_nonpos (mp : Page → List α) (tc : Int)
    (h : tc ≤ 0) (responses : List FetchResult) :
    fetchCommentsUntilCount mp tc responses = (.ok [], 0) := by
  unfold fetchCommentsUntilCount
  rw [collectLoop_stop mp tc responses [] (by simp; omega)]
  simp [jsSliceTo, Except.map]

/-- Whenever the loop returns normally, what it returns is the starting
accumulator followed by the concatenation, in fetch order, of the mapped
items of exactly the pages it fetched. -/
theorem collectLoop_ok_shape (mp : Page → List α) (tc : Int) :
    ∀ (pages : List Page) (acc l : List α) (k : Nat),
      collectLoop mp tc (okStream pages) acc = (.ok l, k) →
      l = acc ++ ((pages.take k).map mp).flatten ∧ k ≤ pages.length := by
  intro pages
  induction pages with
  | nil =>
    intro acc l k h
    by_cases hlt : (acc.length : Int) < tc
    · rw [okStream_nil, collectLoop_nil mp tc acc hlt] at h
      simp at h
    · rw [collectLoop_stop mp tc _ acc hlt] at h
      simp only [Prod.mk.injEq, Except.ok.injEq] at h
      obtain ⟨rfl, rfl⟩ := h
      simp
  | cons p ps ih =>
    intro acc l k h
    rw [okStream_cons] at h
    by_cases hlt : (acc.length : Int) < tc
    · by_cases hb : truthy p.nextPageToken = false ∨ tc ≤ (((acc ++ mp p).length : Nat) : Int)
      · rw [collectLoop_break mp tc p _ acc hlt hb] at h
        simp only [Prod.mk.injEq, Except.ok.injEq] at h
        obtain ⟨rfl, rfl⟩ := h
        simp
      · rw [collectLoop_cont mp tc p _ acc hlt hb] at h
        simp only [Prod.mk.injEq] at h
        obtain ⟨h1, h2⟩ := h
        obtain ⟨k', rfl⟩ : ∃ k', k = k' + 1 := by
          refine ⟨(collectLoop mp tc (okStream ps) (acc ++ mp p)).2, h2.symm⟩
        have hrec : collectLoop mp tc (okStream ps) (acc ++ mp p) = (.ok l, k') := by
          have hk' : (collectLoop mp tc (okStream ps) (acc ++ mp p)).2 = k' := by
            omega
          rw [← h1, ← hk']
        obtain ⟨hl, hle⟩ := ih (acc ++ mp p) l k' hrec
        constructor
        · rw [hl]
          simp [List.take_succ_cons, List.append_assoc]
        · simpa using Nat.succ_le_succ hle
    · rw [collectLoop_stop mp tc _ acc hlt] at h
      simp only [Prod.mk.injEq, Except.ok.injEq] at h
      obtain ⟨rfl, rfl⟩ := h
      simp

/-- If the `while` guard holds on entry and the loop nevertheless returns
normally, at least one fetch was issued. -/
theorem collectLoop_fetches_pos (mp : Page → List α) (tc : Int)
    (rs : List FetchResult) (acc l : List α) (k : Nat)
    (hlt : (acc.length : Int) < tc)
    (h : collectLoop mp tc rs acc = (.ok l, k)) : 1 ≤ k := by
  match rs with
  | [] =>
    rw [collectLoop_nil mp tc acc hlt] at h
    simp at h
  | .err s :: rest =>
    rw [collectLoop_err mp tc s rest acc hlt] at h
    simp at h
  | .ok page :: rest =>
    by_cases hb : truthy page.nextPageToken = false ∨ tc ≤ (((acc ++ mp page).length : Nat) : Int)
    · rw [collectLoop_break mp tc page rest acc hlt hb] at h
      simp only [Prod.mk.injEq] at h
      omega
    · rw [collectLoop_cont mp tc page rest acc hlt hb] at h
      simp only [Prod.mk.injEq] at h
      omega

theorem fetchCommentsUntilCount_of_ok (mp : Page → List α) (tc : Int)
    (rs : List FetchResult) (l : List α) (k : Nat)
    (h : collectLoop mp tc rs [] = (.ok l, k)) :
    fetchCommentsUntilCount mp tc rs =
      (.ok (if tc < (l.length : Int) then jsSliceTo l tc else l), k) := by
  unfold fetchCommentsUntilCount
  rw [h]
  rfl

theorem fetchCommentsUntilCount_of_error (mp : Page → List α) (tc : Int)
    (rs : List FetchResult) (e : FetchErr) (k : Nat)
    (h : collectLoop mp tc rs [] = (.error e, k)) :
    fetchCommentsUntilCount mp tc rs = (.error e, k) := by
  unfold fetchCommentsUntilCount
  rw [h]
  rfl

/-- On a finite pure page stream entered below target, the loop returns
normally; the result stays within what the stream offers and either
reached the target or consumed everything available. -/
theorem collectLoop_length (mp : Page → List α) (tc : Int)
    (hlen : ∀ p, (mp p).length = p.items.length) :
    ∀ (pages : List Page) (acc : List α),
      (∃ p ∈ pages, truthy p.nextPageToken = false) →
      (acc.length : Int) < tc →
      ∃ l k, collectLoop mp tc (okStream pages) acc = (.ok l, k) ∧
        l.length ≤ acc.length + availableItems pages ∧
        (tc ≤ (l.length : Int) ∨
          l.length = acc.length + availableItems pages) := by
  intro pages
  induction pages with
  | nil =>
    intro acc hfin hlt
    simp at hfin
  | cons p ps ih =>
    intro acc hfin hlt
    have hlp := hlen p
    by_cases hb : truthy p.nextPageToken = false ∨ tc ≤ (((acc ++ mp p).length : Nat) : Int)
    · refine ⟨acc ++ mp p, 1, collectLoop_break mp tc p (okStream ps) acc hlt hb, ?_, ?_⟩
      · simp only [availableItems, List.length_append, hlp]
        split <;> omega
      · rcases hb with hnone | hcnt
        · right
          simp [availableItems, hnone, List.length_append, hlp]
        · left
          exact hcnt
    · have htok : ¬ truthy p.nextPageToken = false := fun hh => hb (Or.inl hh)
      have hcnt : ¬ tc ≤ (((acc ++ mp p).length : Nat) : Int) :=
        fun hh => hb (Or.inr hh)
      have hfin2 : ∃ q ∈ ps, truthy q.nextPageToken = false := by
        rcases hfin with ⟨q, hq, hqn⟩
        rcases List.mem_cons.mp hq with rfl | hq2
        · exact absurd hqn htok
        · exact ⟨q, hq2, hqn⟩
      obtain ⟨l, k, hrun, hle, hdisj⟩ :=
        ih (acc ++ mp p) hfin2 (not_le.mp hcnt)
      refine ⟨l, k + 1, ?_, ?_, ?_⟩
      · have hcont := collectLoop_cont mp tc p (okStream ps) acc hlt hb
        rw [okStream_cons, hcont, hrun]
      · simp only [availableItems, if_neg htok]
        simp only [List.length_append, hlp] at hle
        omega
      · rcases hdisj with hge | heq
        · exact Or.inl hge
        · right
          simp only [availableItems, if_neg htok]
          simp only [List.length_append, hlp] at heq
          omega

theorem cumulative_zero (mp : Page → List α) (pages : List Page) :
    cumulative mp pages 0 = 0 := by
  simp [cumulative]

theorem cumulative_cons (mp : Page → List α) (p : Page) (ps : List Page)
    (n : Nat) :
    cumulative mp (p :: ps) (n + 1) = (mp p).length + cumulative mp ps n := by
  simp [cumulative, List.take_succ_cons]

theorem stopsAfter_cons_zero (mp : Page → List α) (tc : Int) (p : Page)
    (ps : List Page) (acc0 : Nat) :
    stopsAfter mp tc (p :: ps) acc0 0 ↔
      (truthy p.nextPageToken = false ∨ tc ≤ ((acc0 + (mp p).length : Nat) : Int)) := by
  unfold stopsAfter
  rw [cumulative_cons, cumulative_zero]
  simp

theorem stopsAfter_cons_succ (mp : Page → List α) (tc : Int) (p : Page)
    (ps : List Page) (acc0 n : Nat) :
    stopsAfter mp tc (p :: ps) acc0 (n + 1) ↔
      stopsAfter mp tc ps (acc0 + (mp p).length) n := by
  unfold stopsAfter
  rw [List.getElem?_cons_succ, cumulative_cons, ← Nat.add_assoc]

/-- On a pure page stream, if the loop returned normally after `k + 1`
fetches then the stop condition held right after the last fetched page and
after no earlier one: the loop ends with the page whose fetch satisfied
the condition. -/
theorem collectLoop_stops_first (mp : Page → List α) (tc : Int) :
    ∀ (pages : List Page) (acc l : List α) (k : Nat),
      (acc.length : Int) < tc →
      collectLoop mp tc (okStream pages) acc = (.ok l, k + 1) →
      stopsAfter mp tc pages acc.length k ∧
        ∀ m < k, ¬ stopsAfter mp tc pages acc.length m := by
  intro pages
  induction pages with
  | nil =>
    intro acc l k hlt h
    rw [okStream_nil, collectLoop_nil mp tc acc hlt] at h
    simp at h
  | cons p ps ih =>
    intro acc l k hlt h
    rw [okStream_cons] at h
    by_cases hb : truthy p.nextPageToken = false ∨ tc ≤ (((acc ++ mp p).length : Nat) : Int)
    · rw [collectLoop_break mp tc p _ acc hlt hb] at h
      simp only [Prod.mk.injEq] at h
      have hk0 : k = 0 := by omega
      subst hk0
      refine ⟨?_, by omega⟩
      rw [stopsAfter_cons_zero]
      simpa [List.length_append] using hb
    · have htok : ¬ truthy p.nextPageToken = false := fun hh => hb (Or.inl hh)
      have hcnt : ¬ tc ≤ (((acc ++ mp p).length : Nat) : Int) :=
        fun hh => hb (Or.inr hh)
      rw [collectLoop_cont mp tc p _ acc hlt hb] at h
      simp only [Prod.mk.injEq] at h
      obtain ⟨h1, h2⟩ := h
      have hrec : collectLoop mp tc (okStream ps) (acc ++ mp p) = (.ok l, k) := by
        have hsnd : (collectLoop mp tc (okStream ps) (acc ++ mp p)).2 = k := by
          omega
        rw [← h1, ← hsnd]
      have hpos : 1 ≤ k :=
        collectLoop_fetches_pos mp tc _ _ l k (not_le.mp hcnt) hrec
      obtain ⟨j, rfl⟩ : ∃ j, k = j + 1 := ⟨k - 1, by omega⟩
      obtain ⟨hfire, hbefore⟩ := ih (acc ++ mp p) l j (not_le.mp hcnt) hrec
      constructor
      · rw [stopsAfter_cons_succ]
        simpa [List.length_append] using hfire
      · intro m hm
        match m with
        | 0 =>
          rw [stopsAfter_cons_zero]
          intro hcontra
          rcases hcontra with hn | hc
          · exact htok hn
          · exact hcnt (by simpa [List.length_append] using hc)
        | m' + 1 =>
          rw [stopsAfter_cons_succ]
          have hm' := hbefore m' (by omega)
          simpa [List.length_append] using hm'

/-- If every fetched page returns a cursor and the target is never
reached, the loop reaches the failing response, aborts with its status at
once, and issues no fetch beyond the failing one — whatever responses
would have followed. -/
theorem collectLoop_error_abort (mp : Page → List α) (tc : Int) (s : Nat)
    (rest : List FetchResult) :
    ∀ (pages : List Page) (acc : List α),
      (∀ p ∈ pages, truthy p.nextPageToken = true) →
      ((acc.length + ((pages.map mp).flatten).length : Nat) : Int) < tc →
      collectLoop mp tc (okStream pages ++ .err s :: rest) acc =
        (.error (.http s), pages.length + 1) := by
  intro pages
  induction pages with
  | nil =>
    intro acc htok hlt
    simp only [List.map_nil, List.flatten_nil, List.length_nil,
      Nat.add_zero] at hlt
    rw [okStream_nil, List.nil_append]
    exact collectLoop_err mp tc s rest acc hlt
  | cons p ps ih =>
    intro acc htok hlt
    simp only [List.map_cons, List.flatten_cons, List.length_append] at hlt
    have hlt0 : (acc.length : Int) < tc := by
      push_cast at hlt ⊢
      omega
    have hb : ¬ (truthy p.nextPageToken = false ∨
        tc ≤ (((acc ++ mp p).length : Nat) : Int)) := by
      intro hcontra
      rcases hcontra with hn | hc
      · rw [htok p (List.mem_cons_self p ps)] at hn
        exact Bool.noConfusion hn
      · rw [List.length_append] at hc
        push_cast at hlt hc
        omega
    have hrec := ih (acc ++ mp p)
      (fun q hq => htok q (List.mem_cons_of_mem p hq))
      (by rw [List.length_append]; push_cast at hlt ⊢; omega)
    rw [okStream_cons, List.cons_append,
      collectLoop_cont mp tc p _ acc hlt0 hb, hrec]
    simp [List.length_cons]

/-- The accumulator a finally block observes when the loop aborts on a
failing response: entry with the guard holding leaves it unchanged. -/
theorem accAtExit_err (mp : Page → List α) (tc : Int) (s : Nat)
    (rs : List FetchResult) (acc : List α)
    (h : (acc.length : Int) < tc) :
    accAtExit mp tc (.err s :: rs) acc = acc := by
  rw [accAtExit.eq_def]
  exact if_pos h

theorem accAtExit_cont (mp : Page → List α) (tc : Int) (page : Page)
    (rest : List FetchResult) (acc : List α)
    (h : (acc.length : Int) < tc)
    (hb : ¬ (truthy page.nextPageToken = false ∨
      tc ≤ ((acc ++ mp page).length : Int))) :
    accAtExit mp tc (.ok page :: rest) acc =
      accAtExit mp tc rest (acc ++ mp page) := by
  rw [accAtExit.eq_def]
  show (if (acc.length : Int) < tc then
      if truthy page.nextPageToken = false ∨ tc ≤ ((acc ++ mp page).length : Int) then
        acc ++ mp page
      else accAtExit mp tc rest (acc ++ mp page)
    else acc) = _
  rw [if_pos h, if_neg hb]

/-- On a run that aborts at a failing response, the accumulator at exit is
exactly the mapped items of the pages fetched before the failure, in
fetch order. -/
theorem accAtExit_error_value (mp : Page → List α) (tc : Int) (s : Nat)
    (rest : List FetchResult) :
    ∀ (pages : List Page) (acc : List α),
      (∀ p ∈ pages, truthy p.nextPageToken = true) →
      ((acc.length + ((pages.map mp).flatten).length : Nat) : Int) < tc →
      accAtExit mp tc (okStream pages ++ .err s :: rest) acc =
        acc ++ (pages.map mp).flatten := by
  intro pages
  induction pages with
  | nil =>
    intro acc htok hlt
    simp only [List.map_nil, List.flatten_nil, List.length_nil,
      Nat.add_zero] at hlt
    rw [okStream_nil, List.nil_append]
    simp [accAtExit_err mp tc s rest acc hlt]
  | cons p ps ih =>
    intro acc htok hlt
    simp only [List.map_cons, List.flatten_cons, List.length_append] at hlt
    have hlt0 : (acc.length : Int) < tc := by
      push_cast at hlt ⊢
      omega
    have hb : ¬ (truthy p.nextPageToken = false ∨
        tc ≤ (((acc ++ mp p).length : Nat) : Int)) := by
      intro hcontra
      rcases hcontra with hn | hc
      · rw [htok p (List.mem_cons_self p ps)] at hn
        exact Bool.noConfusion hn
      · rw [List.length_append] at hc
        push_cast at hlt hc
        omega
    have hrec := ih (acc ++ mp p)
      (fun q hq => htok q (List.mem_cons_of_mem p hq))
      (by rw [List.length_append]; push_cast at hlt ⊢; omega)
    rw [okStream_cons, List.cons_append,
      accAtExit_cont mp tc p _ acc hlt0 hb, hrec, List.append_assoc]
    simp [List.map_cons, List.flatten_cons]

theorem mapPageFull_length : ∀ p : Page, (mapPageFull p).length = p.items.length := by
  intro p
  simp [mapPageFull]

theorem mapPageIndex_length : ∀ p : Page, (mapPageIndex p).length = p.items.length := by
  intro p
  simp [mapPageIndex]

/-- Whenever the guard holds on entry and a response is available, the
loop issues at least one fetch. -/
theorem collectLoop_issues_fetch (mp : Page → List α) (tc : Int)
    (rs : List FetchResult) (acc : List α) (hne : rs ≠ [])
    (hlt : (acc.length : Int) < tc) : 1 ≤ (collectLoop mp tc rs acc).2 := by
  match rs with
  | [] => exact absurd rfl hne
  | .err s :: rest =>
    rw [collectLoop_err mp tc s rest acc hlt]
  | .ok page :: rest =>
    by_cases hb : truthy page.nextPageToken = false ∨
        tc ≤ (((acc ++ mp page).length : Nat) : Int)
    · rw [collectLoop_break mp tc page rest acc hlt hb]
    · rw [collectLoop_cont mp tc page rest acc hlt hb]
      exact Nat.le_add_left 1 _

/-- The loop only ever throws a transport error or — a model artifact —
runs out of supplied responses. -/
theorem collectLoop_error_shape (mp : Page → List α) (tc : Int) :
    ∀ (rs : List FetchResult) (acc : List α) (e : FetchErr) (k : Nat),
      collectLoop mp tc rs acc = (.error e, k) →
      e = .starved ∨ ∃ s, e = .http s := by
  intro rs
  induction rs with
  | nil =>
    intro acc e k h
    by_cases hlt : (acc.length : Int) < tc
    · rw [collectLoop_nil mp tc acc hlt] at h
      simp only [Prod.mk.injEq, Except.error.injEq] at h
      exact Or.inl h.1.symm
    · rw [collectLoop_stop mp tc _ acc hlt] at h
      simp at h
  | cons r rest ih =>
    intro acc e k h
    by_cases hlt : (acc.length : Int) < tc
    · match r with
      | .err s =>
        rw [collectLoop_err mp tc s rest acc hlt] at h
        simp only [Prod.mk.injEq, Except.error.injEq] at h
        exact Or.inr ⟨s, h.1.symm⟩
      | .ok page =>
        by_cases hb : truthy page.nextPageToken = false ∨
            tc ≤ (((acc ++ mp page).length : Nat) : Int)
        · rw [collectLoop_break mp tc page rest acc hlt hb] at h
          simp at h
        · rw [collectLoop_cont mp tc page rest acc hlt hb] at h
          simp only [Prod.mk.injEq] at h
          obtain ⟨h1, h2⟩ := h
          have hrec : collectLoop mp tc rest (acc ++ mp page) =
              (.error e, (collectLoop mp tc rest (acc ++ mp page)).2) := by
            rw [← h1]
          exact ih (acc ++ mp page) e _ hrec
    · rw [collectLoop_stop mp tc _ acc hlt] at h
      simp at h

/-- Inversion of a normal run: the loop returned normally with the same
fetch count, and the result is its value after the final truncation. -/
theorem fetchCommentsUntilCount_ok_inv (mp : Page → List α) (tc : Int)
    (rs : List FetchResult) (l : List α) (k : Nat)
    (h : fetchCommentsUntilCount mp tc rs = (.ok l, k)) :
    ∃ l0, collectLoop mp tc rs [] = (.ok l0, k) ∧
      l = if tc < (l0.length : Int) then jsSliceTo l0 tc else l0 := by
  unfold fetchCommentsUntilCount at h
  simp only [Prod.mk.injEq] at h
  obtain ⟨h1, h2⟩ := h
  rcases hc : (collectLoop mp tc rs []).1 with e | l0
  · rw [hc] at h1
    simp [Except.map] at h1
  · rw [hc] at h1
    simp only [Except.map, Except.ok.injEq] at h1
    refine ⟨l0, ?_, h1.symm⟩
    calc collectLoop mp tc rs []
        = ((collectLoop mp tc rs []).1, (collectLoop mp tc rs []).2) := rfl
      _ = (.ok l0, k) := by rw [hc, h2]

/-- Inversion of the full-snapshot assembler succeeding: both load-bearing
fetches succeeded. -/
theorem fetchVideoData_ok_inv (now videoId : String)
    (videoResp : Except Nat YouTubeVideoResponse) (tc : Int)
    (commentResponses : List FetchResult)
    (captionsResp : Except Nat YouTubeCaptionsResponse)
    (execResult : Except String Unit)
    (readResult : Except String (List (String × String))) (d : FullData)
    (h : fetchVideoData now videoId videoResp tc commentResponses
      captionsResp execResult readResult = .ok d) :
    (∃ v, fetchVideoInfo videoResp = .ok v) ∧
      ∃ cs, (fetchCommentsUntilCount mapPageFull tc commentResponses).1 =
        .ok cs := by
  unfold fetchVideoData at h
  cases hm : fetchVideoInfo videoResp with
  | error e =>
    rw [hm] at h
    simp at h
  | ok v =>
    rw [hm] at h
    cases hc : (fetchCommentsUntilCount mapPageFull tc commentResponses).1 with
    | error e =>
      rw [hc] at h
      simp at h
    | ok cs => exact ⟨⟨v, rfl⟩, cs, rfl⟩

/-- Inversion of the full-snapshot assembler failing: the error came from
the metadata fetch or from the comment collection. -/
theorem fetchVideoData_error_inv (now videoId : String)
    (videoResp : Except Nat YouTubeVideoResponse) (tc : Int)
    (commentResponses : List FetchResult)
    (captionsResp : Except Nat YouTubeCaptionsResponse)
    (execResult : Except String Unit)
    (readResult : Except String (List (String × String))) (e : FetchErr)
    (h : fetchVideoData now videoId videoResp tc commentResponses
      captionsResp execResult readResult = .error e) :
    fetchVideoInfo videoResp = .error e ∨
      (fetchCommentsUntilCount mapPageFull tc commentResponses).1 =
        .error e := by
  unfold fetchVideoData at h
  cases hm : fetchVideoInfo videoResp with
  | error e2 =>
    rw [hm] at h
    simp only [Except.error.injEq] at h
    exact Or.inl (by rw [h])
  | ok v =>
    rw [hm] at h
    cases hc : (fetchCommentsUntilCount mapPageFull tc commentResponses).1 with
    | error e2 =>
      rw [hc] at h
      simp only [Except.error.injEq] at h
      exact Or.inr (by rw [h])
    | ok cs =>
      rw [hc] at h
      simp at h

/-- The assembler fails whenever either load-bearing fetch fails. -/
theorem fetchVideoData_error_of (now videoId : String)
    (videoResp : Except Nat YouTubeVideoResponse) (tc : Int)
    (commentResponses : List FetchResult)
    (captionsResp : Except Nat YouTubeCaptionsResponse)
    (execResult : Except String Unit)
    (readResult : Except String (List (String × String)))
    (h : (∃ e, fetchVideoInfo videoResp = .error e) ∨
      ∃ e, (fetchCommentsUntilCount mapPageFull tc commentResponses).1 =
        .error e) :
    ∃ e, fetchVideoData now videoId videoResp tc commentResponses
      captionsResp execResult readResult = .error e := by
  unfold fetchVideoData
  cases hm : fetchVideoInfo videoResp with
  | error e2 => exact ⟨e2, rfl⟩
  | ok v =>
    cases hc : (fetchCommentsUntilCount mapPageFull tc commentResponses).1 with
    | error e2 => exact ⟨e2, rfl⟩
    | ok cs =>
      rcases h with ⟨e2, he⟩ | ⟨e2, he⟩
      · rw [hm] at he
        simp at he
      · rw [hc] at he
        simp at he

/-! ## Claim theorems -/

/-- C1: for every `targetCount ≥ 0` and every finite page stream (one of
whose pages has a JavaScript-falsy cursor), the collector returns normally
with a sequence of length exactly `min(targetCount, total items available
across pages before the cursor becomes absent)`, where a cursor is absent
for the loop when it is falsy (`!nextPageToken`). Stated for any
page-to-item mapping producing one record per raw item, hence for both
entry scripts. -/
theorem collector_length_min (mp : Page → List α)
    (hlen : ∀ p, (mp p).length = p.items.length) (tc : Int) (htc : 0 ≤ tc)
    (pages : List Page) (hfin : ∃ p ∈ pages, truthy p.nextPageToken = false) :
    ∃ l k, fetchCommentsUntilCount mp tc (okStream pages) = (.ok l, k) ∧
      l.length = min tc.toNat (availableItems pages) := by
  rcases eq_or_lt_of_le htc with heq | hpos
  · refine ⟨[], 0, ?_, ?_⟩
    · exact fetchCommentsUntilCount_nonpos mp tc (by omega) (okStream pages)
    · rw [← heq]
      simp
  · obtain ⟨l, k, hrun, hle, hdisj⟩ :=
      collectLoop_length mp tc hlen pages [] hfin (by simpa using hpos)
    simp only [List.length_nil, Nat.zero_add] at hle hdisj
    have hEq := fetchCommentsUntilCount_of_ok mp tc (okStream pages) l k hrun
    by_cases htr : tc < (l.length : Int)
    · rw [if_pos htr] at hEq
      refine ⟨jsSliceTo l tc, k, hEq, ?_⟩
      have h0 : ¬ tc < 0 := not_lt.mpr htc
      simp only [jsSliceTo, if_neg h0, List.length_take]
      omega
    · rw [if_neg htr] at hEq
      refine ⟨l, k, hEq, ?_⟩
      omega

theorem collector_length_min_witness :
    (∀ p : Page, (mapPageFull p).length = p.items.length) ∧ (0 : Int) ≤ 5 ∧
    (∃ p ∈ samplePages, truthy p.nextPageToken = false) ∧
    ∃ l k, fetchCommentsUntilCount mapPageFull 5 (okStream samplePages) =
        (.ok l, k) ∧
      l.length = min (5 : Int).toNat (availableItems samplePages) :=
  ⟨mapPageFull_length, by norm_num, by decide,
    collector_length_min mapPageFull mapPageFull_length 5 (by norm_num)
      samplePages (by decide)⟩

/-- C2: whenever a run over a pure page stream returns normally and the
`k` pages it fetched together yield more than `targetCount` items, the
returned sequence equals the first `targetCount` items of the
concatenation of the fetched pages, in fetch order. -/
theorem collector_truncation_law (mp : Page → List α) (tc : Int)
    (htc : 0 ≤ tc) (pages : List Page) (l : List α) (k : Nat)
    (hrun : fetchCommentsUntilCount mp tc (okStream pages) = (.ok l, k))
    (hover : tc < ((((pages.take k).map mp).flatten).length : Int)) :
    l = (((pages.take k).map mp).flatten).take tc.toNat := by
  obtain ⟨l0, hloop, hval⟩ :=
    fetchCommentsUntilCount_ok_inv mp tc (okStream pages) l k hrun
  obtain ⟨hshape, hk⟩ := collectLoop_ok_shape mp tc pages [] l0 k hloop
  simp only [List.nil_append] at hshape
  subst hshape
  rw [if_pos hover] at hval
  rw [hval]
  simp [jsSliceTo, not_lt.mpr htc]

theorem collector_truncation_law_witness :
    (0 : Int) ≤ 1 ∧
    fetchCommentsUntilCount mapPageFull 1 (okStream samplePages) =
      (.ok [mapItemFull sampleItem], 1) ∧
    (1 : Int) < ((((samplePages.take 1).map mapPageFull).flatten).length : Int) ∧
    [mapItemFull sampleItem] =
      (((samplePages.take 1).map mapPageFull).flatten).take (1 : Int).toNat :=
  ⟨by norm_num, by decide, by decide,
    collector_truncation_law mapPageFull 1 (by norm_num) samplePages
      [mapItemFull sampleItem] 1 (by decide) (by decide)⟩

/-- C3: (a) a non-positive target performs zero fetches and returns the
empty sequence, for any response stream; (b) the loop never issues a fetch
when the count condition already holds at loop entry; (c) on a pure page
stream a normal run stops with the first page after which the termination
condition (falsy cursor, per `!nextPageToken`, or target reached) holds,
and fetches every page before it — so no fetch is issued once the
condition holds. -/
theorem collector_termination_law (mp : Page → List α) (tc : Int) :
    (tc ≤ 0 → ∀ rs : List FetchResult,
        fetchCommentsUntilCount mp tc rs = (.ok [], 0)) ∧
    (∀ (rs : List FetchResult) (acc : List α), tc ≤ (acc.length : Int) →
        collectLoop mp tc rs acc = (.ok acc, 0)) ∧
    (∀ (pages : List Page) (l : List α) (k : Nat),
        collectLoop mp tc (okStream pages) [] = (.ok l, k + 1) →
        stopsAfter mp tc pages 0 k ∧
          ∀ m < k, ¬ stopsAfter mp tc pages 0 m) := by
  refine ⟨?_, ?_, ?_⟩
  · intro h rs
    exact fetchCommentsUntilCount_nonpos mp tc h rs
  · intro rs acc h
    exact collectLoop_stop mp tc rs acc (not_lt.mpr h)
  · intro pages l k h
    by_cases hlt : ((([] : List α).length : Nat) : Int) < tc
    · have hres := collectLoop_stops_first mp tc pages [] l k hlt h
      simpa using hres
    · rw [collectLoop_stop mp tc _ [] hlt] at h
      simp at h

theorem collector_termination_law_witness :
    (-3 : Int) ≤ 0 ∧
    fetchCommentsUntilCount mapPageFull (-3) [FetchResult.err 500] =
      (.ok [], 0) :=
  ⟨by norm_num,
    (collector_termination_law mapPageFull (-3)).1 (by norm_num)
      [FetchResult.err 500]⟩

/-- C4: when the transport fails on a page with a non-2xx status — the
earlier pages all having returned truthy cursors without reaching the
target, so the loop really reaches the failing fetch —
the run aborts at once with that error, performs no retry, and issues no
fetch beyond the failing one: the fetch count is the failing page's index
and the result is the propagated error, whatever responses would have
followed. -/
theorem collector_error_aborts (mp : Page → List α) (tc : Int) (s : Nat)
    (pages : List Page) (rest : List FetchResult)
    (htok : ∀ p ∈ pages, truthy p.nextPageToken = true)
    (hunder : ((((pages.map mp).flatten).length : Nat) : Int) < tc) :
    fetchCommentsUntilCount mp tc (okStream pages ++ .err s :: rest) =
      (.error (.http s), pages.length + 1) := by
  have h := collectLoop_error_abort mp tc s rest pages []
    htok (by simpa using hunder)
  exact fetchCommentsUntilCount_of_error mp tc _ _ _ h

theorem collector_error_aborts_witness :
    (∀ p ∈ [samplePage1], truthy p.nextPageToken = true) ∧
    (((([samplePage1].map mapPageFull).flatten).length : Nat) : Int) < 10 ∧
    fetchCommentsUntilCount mapPageFull 10
        (okStream [samplePage1] ++ .err 403 :: [FetchResult.err 500]) =
      (.error (.http 403), 2) :=
  ⟨by decide, by decide,
    collector_error_aborts mapPageFull 10 403 [samplePage1]
      [FetchResult.err 500] (by decide) (by decide)⟩

/-- C5: a failing caption-track listing yields `captionTracks = []` and a
failing external caption download yields the empty language mapping; with
metadata and comments succeeding, the run still assembles a full snapshot
containing those empty substitutes — neither failure aborts it. -/
theorem assembler_caption_soft_fail (now videoId : String)
    (videoResp : Except Nat YouTubeVideoResponse) (v : IVideoInfo)
    (tc : Int) (commentResponses : List FetchResult) (cs : List IComment)
    (sErr : Nat) (eMsg : String)
    (readResult : Except String (List (String × String)))
    (hmeta : fetchVideoInfo videoResp = .ok v)
    (hcmts : (fetchCommentsUntilCount mapPageFull tc commentResponses).1 =
      .ok cs) :
    fetchCaptionsList (.error sErr) = [] ∧
    downloadCaptionsWithYtDlp videoId (.error eMsg) readResult = [] ∧
    fetchVideoData now videoId videoResp tc commentResponses (.error sErr)
        (.error eMsg) readResult =
      .ok { videoInfo := v
            comments := cs
            captions := []
            captionContents := []
            metadata :=
              { crawledAt := now
                totalComments := cs.length
                totalCaptions := 0
                totalCaptionContents := 0
                captionSources :=
                  { list := "YouTube Data API v3", content := "yt-dlp" } } } := by
  refine ⟨rfl, rfl, ?_⟩
  unfold fetchVideoData
  rw [hmeta, hcmts]
  rfl

theorem assembler_caption_soft_fail_witness :
    fetchVideoInfo (.ok { items := some [sampleVideo] }) =
      .ok sampleVideoInfo ∧
    (fetchCommentsUntilCount mapPageFull 0 ([] : List FetchResult)).1 =
      .ok [] ∧
    fetchCaptionsList (.error 500) = [] ∧
    downloadCaptionsWithYtDlp "v" (.error "boom") (.ok []) = [] ∧
    fetchVideoData "2024-02-02" "v" (.ok { items := some [sampleVideo] }) 0 []
        (.error 500) (.error "boom") (.ok []) =
      .ok { videoInfo := sampleVideoInfo
            comments := []
            captions := []
            captionContents := []
            metadata :=
              { crawledAt := "2024-02-02"
                totalComments := 0
                totalCaptions := 0
                totalCaptionContents := 0
                captionSources :=
                  { list := "YouTube Data API v3", content := "yt-dlp" } } } := by
  have h := assembler_caption_soft_fail "2024-02-02" "v"
    (.ok { items := some [sampleVideo] }) sampleVideoInfo 0 [] [] 500 "boom"
    (.ok []) (by decide) (by decide)
  exact ⟨by decide, by decide, h.1, h.2.1, h.2.2⟩

/-- C6 (spec-modelled; the comment-only entry script is absent from
`src/`): the comment-only variant writes the output store on every exit
path — the persisted slot is always filled — and when the transport fails
partway through collection, what is persisted is exactly the items of the
pages fetched before the failure, even though the collector surfaces the
error. -/
theorem comment_only_guaranteed_write (mp : Page → List α) (tc : Int)
    (responses : List FetchResult) (s : Nat) (pages : List Page)
    (rest : List FetchResult)
    (htok : ∀ p ∈ pages, truthy p.nextPageToken = true)
    (hunder : ((((pages.map mp).flatten).length : Nat) : Int) < tc) :
    (∃ w, (commentOnlyRun mp tc responses).2 = some w) ∧
    (commentOnlyRun mp tc (okStream pages ++ .err s :: rest)).1.1 =
      .error (.http s) ∧
    (commentOnlyRun mp tc (okStream pages ++ .err s :: rest)).2 =
      some ((pages.map mp).flatten) := by
  refine ⟨⟨accAtExit mp tc responses [], rfl⟩, ?_, ?_⟩
  · show (fetchCommentsUntilCount mp tc (okStream pages ++ .err s :: rest)).1 =
      .error (.http s)
    rw [fetchCommentsUntilCount_of_error mp tc _ _ _
      (collectLoop_error_abort mp tc s rest pages [] htok
        (by simpa using hunder))]
  · show some (accAtExit mp tc (okStream pages ++ .err s :: rest) []) =
      some ((pages.map mp).flatten)
    rw [accAtExit_error_value mp tc s rest pages [] htok
      (by simpa using hunder)]
    simp

theorem comment_only_guaranteed_write_witness :
    (∀ p ∈ [samplePage1], truthy p.nextPageToken = true) ∧
    (((([samplePage1].map mapPageFull).flatten).length : Nat) : Int) < 10 ∧
    (∃ w, (commentOnlyRun mapPageFull 10 ([] : List FetchResult)).2 =
      some w) ∧
    (commentOnlyRun mapPageFull 10
        (okStream [samplePage1] ++ .err 403 :: [])).1.1 =
      .error (.http 403) ∧
    (commentOnlyRun mapPageFull 10
        (okStream [samplePage1] ++ .err 403 :: [])).2 =
      some (([samplePage1].map mapPageFull).flatten) := by
  have h := comment_only_guaranteed_write mapPageFull 10 [] 403 [samplePage1]
    [] (by decide) (by decide)
  exact ⟨by decide, by decide, h.1, h.2.1, h.2.2⟩

/-- C8: a fetched page with zero items but a present (JavaScript-truthy,
hence non-empty) cursor, while the
accumulated count is still below target, does not terminate the loop: the
run continues on the remaining responses from the same accumulator with
one more fetch counted, and another fetch is issued whenever a further
response exists. -/
theorem zero_item_page_continues (mp : Page → List α) (tc : Int) (p : Page)
    (rest : List FetchResult) (acc : List α)
    (hitems : p.items = []) (htok : truthy p.nextPageToken = true)
    (hlen : ∀ q, (mp q).length = q.items.length)
    (hlt : (acc.length : Int) < tc) :
    collectLoop mp tc (.ok p :: rest) acc =
      ((collectLoop mp tc rest acc).1,
        (collectLoop mp tc rest acc).2 + 1) ∧
    (rest ≠ [] → 1 ≤ (collectLoop mp tc rest acc).2) := by
  have hmp : mp p = [] := List.length_eq_zero.mp (by rw [hlen p, hitems]; rfl)
  have hb : ¬ (truthy p.nextPageToken = false ∨
      tc ≤ (((acc ++ mp p).length : Nat) : Int)) := by
    rintro (hn | hc)
    · rw [htok] at hn
      exact Bool.noConfusion hn
    · rw [hmp, List.append_nil] at hc
      exact absurd hc (not_le.mpr hlt)
  constructor
  · have hcont := collectLoop_cont mp tc p rest acc hlt hb
    rw [hmp, List.append_nil] at hcont
    exact hcont
  · intro hne
    exact collectLoop_issues_fetch mp tc rest acc hne hlt

theorem zero_item_page_continues_witness :
    (({ items := [], nextPageToken := some "t" } : Page).items = []) ∧
    (truthy ({ items := [], nextPageToken := some "t" } : Page).nextPageToken =
      true) ∧
    (∀ q : Page, (mapPageFull q).length = q.items.length) ∧
    ((([] : List IComment).length : Int) < 4) ∧
    (collectLoop mapPageFull 4
        (.ok { items := [], nextPageToken := some "t" } ::
          [FetchResult.ok { items := [], nextPageToken := none }]) [] =
      ((collectLoop mapPageFull 4
          [FetchResult.ok { items := [], nextPageToken := none }] []).1,
        (collectLoop mapPageFull 4
          [FetchResult.ok { items := [], nextPageToken := none }] []).2 + 1) ∧
      ([FetchResult.ok { items := [], nextPageToken := none }] ≠ [] →
        1 ≤ (collectLoop mapPageFull 4
          [FetchResult.ok { items := [], nextPageToken := none }] []).2)) :=
  ⟨rfl, rfl, mapPageFull_length, by decide,
    zero_item_page_continues mapPageFull 4
      { items := [], nextPageToken := some "t" }
      [FetchResult.ok { items := [], nextPageToken := none }] [] rfl rfl
      mapPageFull_length (by decide)⟩

/-- A failing run's error comes from the loop itself. -/
theorem fetchComments_error_inv (mp : Page → List α) (tc : Int)
    (rs : List FetchResult) (e : FetchErr)
    (h : (fetchCommentsUntilCount mp tc rs).1 = .error e) :
    (collectLoop mp tc rs []).1 = .error e := by
  unfold fetchCommentsUntilCount at h
  rcases hc : (collectLoop mp tc rs []).1 with e2 | l0 <;> rw [hc] at h
  · simpa [Except.map] using h
  · simp [Except.map] at h

/-- A failing run surfaces a transport error (or, as a model artifact,
stream starvation) — never anything else. -/
theorem fetchComments_error_shape (mp : Page → List α) (tc : Int)
    (rs : List FetchResult) (e : FetchErr)
    (h : (fetchCommentsUntilCount mp tc rs).1 = .error e) :
    e = .starved ∨ ∃ s, e = .http s := by
  have h2 := fetchComments_error_inv mp tc rs e h
  refine collectLoop_error_shape mp tc rs [] e (collectLoop mp tc rs []).2 ?_
  calc collectLoop mp tc rs []
      = ((collectLoop mp tc rs []).1, (collectLoop mp tc rs []).2) := rfl
    _ = (.error e, (collectLoop mp tc rs []).2) := by rw [h2]

/-- C7 counterexample: in `src/index.ts` a metadata-fetch error (HTTP 403)
is reached, yet the process finishes with exit status 0 — the top-level
`.catch(console.error)` swallows the rejection — so the process does not
exit non-zero on every metadata-fetch error. -/
theorem exit_status_counterexample :
    fetchVideoDataIndex (.error 403) 5 [] = .error (.http 403) ∧
    indexEntryExitCode (fetchVideoDataIndex (.error 403) 5 []) = 0 :=
  ⟨rfl, rfl⟩

/-- C7 amended: in the full-snapshot entry script (`src/unnamed/part_000`)
the process exits non-zero exactly when the `id` or `key` configuration is
missing (JavaScript-falsy) or a metadata-fetch or comment-fetch error is
reached, and zero otherwise; the `src/index.ts` entry script instead
catches every rejection at top level and always finishes with status 0. -/
theorem exit_status_amended (envId envKey : Option String) (now : String)
    (videoResp : Except Nat YouTubeVideoResponse) (tc : Int)
    (commentResponses : List FetchResult)
    (captionsResp : Except Nat YouTubeCaptionsResponse)
    (execResult : Except String Unit)
    (readResult : Except String (List (String × String)))
    (hnostarve :
      (fetchCommentsUntilCount mapPageFull tc commentResponses).1 ≠
        .error .starved) :
    (mainExitCode envId envKey now videoResp tc commentResponses captionsResp
        execResult readResult ≠ 0 ↔
      (truthy envId = false ∨ truthy envKey = false ∨
        (∃ e, fetchVideoInfo videoResp = .error e) ∨
        ∃ s, (fetchCommentsUntilCount mapPageFull tc commentResponses).1 =
          .error (.http s))) ∧
    ∀ r : Except FetchErr VideoData, indexEntryExitCode r = 0 := by
  constructor
  · unfold mainExitCode
    cases hI : truthy envId with
    | false => simp
    | true =>
      cases hK : truthy envKey with
      | false => simp
      | true =>
        rw [if_neg (by simp), if_neg (by simp)]
        cases hD : fetchVideoData now (envId.getD "") videoResp tc
            commentResponses captionsResp execResult readResult with
        | ok d =>
          obtain ⟨⟨v, hv⟩, cs, hcs⟩ := fetchVideoData_ok_inv now
            (envId.getD "") videoResp tc commentResponses captionsResp
            execResult readResult d hD
          constructor
          · intro h
            exact absurd rfl h
          · rintro (h | h | ⟨e, he⟩ | ⟨s, hs⟩)
            · exact absurd h (by simp)
            · exact absurd h (by simp)
            · rw [hv] at he
              exact absurd he (by simp)
            · rw [hcs] at hs
              exact absurd hs (by simp)
        | error e =>
          constructor
          · intro _
            rcases fetchVideoData_error_inv now (envId.getD "") videoResp tc
              commentResponses captionsResp execResult readResult e hD with
              hm | hc
            · exact Or.inr (Or.inr (Or.inl ⟨e, hm⟩))
            · rcases fetchComments_error_shape mapPageFull tc
                commentResponses e hc with rfl | ⟨s, rfl⟩
              · exact absurd hc hnostarve
              · exact Or.inr (Or.inr (Or.inr ⟨s, hc⟩))
          · intro _
            exact one_ne_zero
  · intro r
    cases r <;> rfl

theorem exit_status_amended_witness :
    (fetchCommentsUntilCount mapPageFull 3
        (okStream [{ items := [], nextPageToken := none }])).1 ≠
      .error .starved ∧
    ((mainExitCode (some "vid") none "2024-02-02" (.error 403) 3
        (okStream [{ items := [], nextPageToken := none }]) (.error 500)
        (.error "boom") (.ok []) ≠ 0 ↔
      (truthy (some "vid") = false ∨ truthy (none : Option String) = false ∨
        (∃ e, fetchVideoInfo (.error 403) = .error e) ∨
        ∃ s, (fetchCommentsUntilCount mapPageFull 3
          (okStream [{ items := [], nextPageToken := none }])).1 =
            .error (.http s))) ∧
      ∀ r : Except FetchErr VideoData, indexEntryExitCode r = 0) :=
  ⟨by decide,
    exit_status_amended (some "vid") none "2024-02-02" (.error 403) 3
      (okStream [{ items := [], nextPageToken := none }]) (.error 500)
      (.error "boom") (.ok []) (by decide)⟩

/-- C9: every comment record a successful `src/index.ts` run returns was
produced from one of the stream's pages by the index mapping and carries a
`nextPageToken` field equal to that page's returned cursor — so the
pagination tokens sit inside the returned (and hence persisted) comment
records. -/
theorem index_items_carry_page_token (tc : Int) (pages : List Page)
    (l : List ICommentWithToken) (k : Nat)
    (hrun : fetchCommentsUntilCount mapPageIndex tc (okStream pages) =
      (.ok l, k)) :
    ∀ c ∈ l, ∃ p ∈ pages, c ∈ mapPageIndex p ∧
      c.nextPageToken = p.nextPageToken := by
  obtain ⟨l0, hloop, hval⟩ :=
    fetchCommentsUntilCount_ok_inv mapPageIndex tc (okStream pages) l k hrun
  obtain ⟨hshape, hk⟩ :=
    collectLoop_ok_shape mapPageIndex tc pages [] l0 k hloop
  simp only [List.nil_append] at hshape
  intro c hc
  have hc0 : c ∈ l0 := by
    rw [hval] at hc
    by_cases htr : tc < ((l0.length : Nat) : Int)
    · rw [if_pos htr] at hc
      unfold jsSliceTo at hc
      split at hc
      · exact List.mem_of_mem_take hc
      · exact List.mem_of_mem_take hc
    · rwa [if_neg htr] at hc
  rw [hshape, List.mem_flatten] at hc0
  obtain ⟨li, hli, hcli⟩ := hc0
  rw [List.mem_map] at hli
  obtain ⟨p, hp, rfl⟩ := hli
  refine ⟨p, List.take_subset k pages hp, hcli, ?_⟩
  unfold mapPageIndex at hcli
  rw [List.mem_map] at hcli
  obtain ⟨item, _, rfl⟩ := hcli
  rfl

theorem index_items_carry_page_token_witness :
    fetchCommentsUntilCount mapPageIndex 5 (okStream sampleTokenPages) =
      (.ok [sampleIndexComment], 2) ∧
    ∀ c ∈ [sampleIndexComment], ∃ p ∈ sampleTokenPages,
      c ∈ mapPageIndex p ∧ c.nextPageToken = p.nextPageToken :=
  ⟨by decide,
    index_items_carry_page_token 5 sampleTokenPages [sampleIndexComment] 2
      (by decide)⟩

/-- C10: the full-snapshot script requests `part=snippet,replies`, yet its
item mapping keeps only the five `IComment` fields: the mapped record is
unchanged under any alteration of the raw item's reply count and raw reply
sub-sequence, and a page maps to exactly its items' five-field records —
so no reply data reaches the assembled snapshot. -/
theorem full_mapping_drops_replies (videoId key order : String)
    (tok : Option String) (item : RawItem) (n : Nat)
    (r : Option RawReplies) :
    ("part", "snippet,replies") ∈ buildCommentParams videoId key order tok ∧
    mapItemFull { item with
        snippet := { item.snippet with totalReplyCount := n }
        replies := r } = mapItemFull item ∧
    (∀ p : Page, mapPageFull p = p.items.map mapItemFull) :=
  ⟨by simp [buildCommentParams], rfl, fun p => rfl⟩

end YoutubeCrawl
